import Mathlib

/-!
Verification of the liblscp client engine (`src/client.c`).

C strings are modelled as `List Char` (no interior NUL bytes); in-place
pointer surgery (null-terminating tokens, cursor advancing) is modelled by
value-passing: each tokenizer step returns the token together with the
remaining buffer after the advanced cursor.  Machine `int` is modelled as
`Int`.  Heap identity of the `buffer_fill` array is modelled with an
allocation counter: every `malloc` yields a fresh identifier.
-/

set_option maxRecDepth 4096

abbrev Str := List Char

/-- Character list of a string literal. -/
def strL (s : String) : Str := s.data

/-- C `isspace` over the ASCII range (space, tab, LF, VT, FF, CR). -/
def isSpaceC (c : Char) : Bool :=
  c == ' ' || c == '\t' || c == '\n' || c == Char.ofNat 11 || c == Char.ofNat 12 || c == '\r'

/-- Trimming left spaces, after `_lscp_ltrim` (client.c:136). -/
def _lscp_ltrim (s : Str) : Str := s.dropWhile isSpaceC

/-- Right-trim of trailing spaces; models the back-up loop
`while (isspace(*(*ppsz - 1)) && *ppsz > psz) --(*ppsz)` used by
`_lscp_unquote` and `_lscp_szsplit_create`. -/
def rtrimC (s : Str) : Str := (s.reverse.dropWhile isSpaceC).reverse

/-- Trailing CR/LF test used when `lscp_client_query` trims a response. -/
def isCrLf (c : Char) : Bool := c == '\r' || c == '\n'

/-- Drop the trailing run of CR/LF bytes, after the loop at client.c:862. -/
def trimCrLf (s : Str) : Str := (s.reverse.dropWhile isCrLf).reverse

/-- Case-insensitive string equality (`strcasecmp(a, b) == 0`). -/
def lowerEq (a b : Str) : Bool := a.map Char.toLower == b.map Char.toLower

/-- Case-insensitive prefix test (`strncasecmp(s, pre, |pre|) == 0`). -/
def startsWithCI (pre s : Str) : Bool := lowerEq (s.take pre.length) pre

/-- Accumulator loop of C `atoi`: consume leading decimal digits. -/
def atoiDigits : Str → Nat → Nat
  | [], acc => acc
  | c :: rest, acc => if c.isDigit then atoiDigits rest (10 * acc + (c.toNat - 48)) else acc

/-- C `atoi`: skip whitespace, optional sign, then leading digits. -/
def atoi (s : Str) : Int :=
  match s.dropWhile isSpaceC with
  | [] => 0
  | c :: rest =>
    if c = '-' then - (atoiDigits rest 0 : Int)
    else if c = '+' then (atoiDigits rest 0 : Int)
    else (atoiDigits (c :: rest) 0 : Int)

/-- Decimal value of a digit string (specification-level reading of a
numeric field). -/
def decValue (s : Str) : Nat := s.foldl (fun a c => 10 * a + (c.toNat - 48)) 0

/-- Custom tokenizer `_lscp_strtok` (client.c:109), value-level: skip
leading separators; if the buffer is exhausted yield nothing (the cursor
is not moved); otherwise yield the maximal separator-free token and the
buffer after the cursor, which is advanced past the terminating separator
and any separators that follow it. -/
def _lscp_strtok (buf seps : Str) : Option (Str × Str) :=
  let b := buf.dropWhile (fun c => seps.contains c)
  if b.isEmpty then none
  else
    let tok := b.takeWhile (fun c => !seps.contains c)
    let rest := (b.dropWhile (fun c => !seps.contains c)).dropWhile (fun c => seps.contains c)
    some (tok, rest)

/-- Unquote an in-split string, after `_lscp_unquote` (client.c:144),
returning the produced string value.  The `dup` flag only selects between
an owned copy and an aliasing pointer, which value semantics does not
distinguish.  Bare (unquoted) text keeps its trailing whitespace: only
leading whitespace is skipped. -/
def _lscp_unquote (s : Str) : Str :=
  match s.dropWhile isSpaceC with
  | [] => []
  | c :: rest =>
    if c = '"' ∨ c = '\'' then
      let inner := rest.dropWhile isSpaceC
      if (inner.dropWhile (fun d => d ≠ c)).isEmpty then
        inner
      else
        rtrimC (inner.takeWhile (fun d => d ≠ c))
    else c :: rest

/-- Position of the next separator, as `strpbrk`: the text before the
first separator character and the text after it, or none. -/
def splitAtSep (s : Str) (seps : Str) : Option (Str × Str) :=
  match s.dropWhile (fun c => !seps.contains c) with
  | [] => none
  | _ :: after => some (s.takeWhile (fun c => !seps.contains c), after)

theorem dropWhileLenLe (p : Char → Bool) (l : Str) : (l.dropWhile p).length ≤ l.length := by
  induction l with
  | nil => simp
  | cons c t ih =>
    by_cases h : p c
    · rw [List.dropWhile_cons_of_pos h]; exact Nat.le_succ_of_le ih
    · rw [List.dropWhile_cons_of_neg h]

theorem lenEqTakeAddDrop (p : Char → Bool) (l : Str) :
    l.length = (l.takeWhile p).length + (l.dropWhile p).length := by
  rw [← List.length_append, List.takeWhile_append_dropWhile]

theorem splitAtSepLenLt (s seps before after : Str)
    (h : splitAtSep s seps = some (before, after)) : after.length < s.length := by
  simp only [splitAtSep] at h
  split at h
  · exact absurd h (by simp)
  · rename_i c tl hdrop
    have h2 : tl = after := by
      have := (Option.some.injEq .. ▸ h)
      exact congrArg Prod.snd this
    have h3 : tl.length = after.length := congrArg List.length h2
    have hlen := lenEqTakeAddDrop (fun c => !seps.contains c) s
    rw [hdrop] at hlen
    simp at hlen
    omega

/-- Item loop of `_lscp_szsplit_create` (client.c:178) on comma separators,
value-level: each call produces the item starting at `head` and recurses
past the next comma outside quotes.  Unquoted items are left-trimmed by
`_lscp_unquote` and right-trimmed by the next iteration's in-place
termination; the final item keeps its trailing whitespace. -/
def szsplitLoop (head : Str) : List Str :=
  match hh : head.dropWhile isSpaceC with
  | [] => [[]]
  | q :: rest₁ =>
    if q = '"' ∨ q = '\'' then
      let inner := rest₁.dropWhile isSpaceC
      match hq : inner.dropWhile (fun d => d ≠ q) with
      | [] => [inner]
      | _ :: afterQ =>
        match hs : splitAtSep afterQ [','] with
        | none => [rtrimC (inner.takeWhile (fun d => d ≠ q))]
        | some (_, afterComma) =>
          rtrimC (inner.takeWhile (fun d => d ≠ q)) :: szsplitLoop afterComma
    else
      match hs : splitAtSep (q :: rest₁) [','] with
      | none => [q :: rest₁]
      | some (before, afterComma) => rtrimC before :: szsplitLoop afterComma
  termination_by head.length
  decreasing_by
  · have hlen4 := splitAtSepLenLt _ _ _ _ hs
    have hlen2 := lenEqTakeAddDrop (fun d => d ≠ q) (rest₁.dropWhile isSpaceC)
    rw [hq] at hlen2
    have hlen1 := dropWhileLenLe isSpaceC rest₁
    have hlen5 := lenEqTakeAddDrop isSpaceC head
    rw [hh] at hlen5
    simp at hlen2 hlen5 ⊢
    omega
  · have hlen4 := splitAtSepLenLt _ _ _ _ hs
    have hlen5 := lenEqTakeAddDrop isSpaceC head
    rw [hh] at hlen5
    simp at hlen4 hlen5 ⊢
    omega

/-- Split a comma separated string into an ordered list of strings, after
`_lscp_szsplit_create` (client.c:178) with its only separator set `","`. -/
def _lscp_szsplit_create (csv : Str) : List Str := szsplitLoop csv

/-- Transaction/protocol status codes (`lscp_status_t`). -/
inductive LscpStatus where
  | ok
  | failed
  | error
  | warning
  | timeout
  deriving DecidableEq, Repr

/-- Outcome of the raw socket transaction `lscp_client_call` as observed by
`lscp_client_query`: a received byte string, a timeout, or a transport
failure.  The network is an oracle of the model. -/
inductive CallOutcome where
  | received (raw : Str)
  | timeout
  | failed
  deriving DecidableEq, Repr

/-- Driver type info cache (`lscp_driver_info_t`). -/
structure lscp_driver_info_t where
  description : Option Str
  version : Option Str
  parameters : Option (List Str)
  deriving DecidableEq, Repr

/-- Engine info cache (`lscp_engine_info_t`). -/
structure lscp_engine_info_t where
  description : Option Str
  version : Option Str
  deriving DecidableEq, Repr

/-- Channel info cache (`lscp_channel_info_t`, per the fields populated by
`lscp_get_channel_info` in client.c).  The `volume` field is stored in C as
`(float) atof(text)`; floating point is outside this embedding, so the
model records the left-trimmed text handed to `atof` (`none` standing for
the initial `0.0`). -/
structure lscp_channel_info_t where
  engine_name : Option Str
  audio_device : Int
  audio_channels : Int
  audio_routing : Option (List Str)
  instrument_file : Option Str
  instrument_nr : Int
  midi_device : Int
  midi_port : Int
  midi_channel : Int
  volume : Option Str
  deriving DecidableEq, Repr

/-- Initial driver info cache (`_lscp_driver_info_init`). -/
def lscp_driver_info_init : lscp_driver_info_t :=
  { description := none, version := none, parameters := none }

/-- Initial engine info cache (`_lscp_engine_info_init`). -/
def lscp_engine_info_init : lscp_engine_info_t :=
  { description := none, version := none }

/-- Initial channel info cache (`_lscp_channel_info_init`). -/
def lscp_channel_info_init : lscp_channel_info_t :=
  { engine_name := none, audio_device := 0, audio_channels := 0,
    audio_routing := none, instrument_file := none, instrument_nr := 0,
    midi_device := 0, midi_port := 0, midi_channel := 0, volume := none }

/-- Client descriptor state (`struct _lscp_client_t`), restricted to the
fields the verified operations read or write.  Socket handles, threads and
the mutex are not value-level state.  The heap identity of the
`buffer_fill` array is `(allocation id, allocated length)`; `nextAllocId`
models the allocator: each `malloc` hands out a fresh id. -/
structure lscp_client_t where
  sessid : Option Str
  audio_info : lscp_driver_info_t
  midi_info : lscp_driver_info_t
  engine_info : lscp_engine_info_t
  channel_info : lscp_channel_info_t
  pszResult : Option Str
  iErrno : Int
  buffer_fill : Option (Nat × Nat)
  nextAllocId : Nat
  iStreamCount : Int
  iTimeout : Int
  deriving DecidableEq, Repr

/-- Result buffer internal settler `_lscp_client_set_result` (client.c:266):
the previous result is released, the errno is assigned, and the new result
(if any) is stored as a left-trimmed copy. -/
def _lscp_client_set_result (c : lscp_client_t) (res : Option Str) (e : Int) : lscp_client_t :=
  { c with pszResult := res.map _lscp_ltrim, iErrno := e }

/-- Separator set `":[]"` used by the response classifier. -/
def querySeps : Str := [':', '[', ']']

/-- The fixed timeout message of `lscp_client_query` (client.c:899). -/
def timeoutMsg : Str := strL "Timeout during receive operation"

/-- Response classification of `lscp_client_query` (client.c:860-899) on an
already CR/LF-trimmed response text: the status, the result text (if any)
and the errno value that will be stored. -/
def queryClassify (a : Str) : LscpStatus × Option Str × Int :=
  let ret : LscpStatus :=
    if startsWithCI (strL "ERR:") a then .error
    else if startsWithCI (strL "WRN:") a then .warning
    else .ok
  if ret = .ok then
    if startsWithCI (strL "OK[") a then
      match _lscp_strtok a querySeps with
      | none => (.ok, none, 0)
      | some (_, rest) =>
        match _lscp_strtok rest querySeps with
        | none => (.ok, none, 0)
        | some (tok2, _) => (.ok, some tok2, 0)
    else (.ok, some a, 0)
  else
    match _lscp_strtok a querySeps with
    | none => (ret, none, -1)
    | some (_, rest1) =>
      match _lscp_strtok rest1 querySeps with
      | none => (ret, none, -1)
      | some (tok2, rest2) =>
        match _lscp_strtok rest2 querySeps with
        | none => (ret, none, atoi tok2)
        | some (tok3, _) => (ret, some tok3, atoi tok2)

/-- Body of `lscp_client_query` (client.c:837) after the NULL-client guard:
perform the transaction, trim trailing CR/LF, classify, and make the
result official via `_lscp_client_set_result`.  On TIMEOUT the fixed
timeout message is stored with the local errno still at its initial `-1`;
on transport failure the result is cleared with errno `-1`. -/
def lscp_client_query_body (c : lscp_client_t) (out : CallOutcome) : LscpStatus × lscp_client_t :=
  match out with
  | .received raw =>
    let a := trimCrLf raw
    let (ret, res, e) := queryClassify a
    (ret, _lscp_client_set_result c res e)
  | .timeout => (.timeout, _lscp_client_set_result c (some timeoutMsg) (-1))
  | .failed => (.failed, _lscp_client_set_result c none (-1))

/-- One datagram step of the UDP service loop `_lscp_client_udp_proc`
(client.c:401-442): the session-id after the step, the PONG datagram sent
back (if any), and the datagram forwarded to the event callback (if any). -/
structure UdpStepResult where
  sessid : Option Str
  pong : Option Str
  forwarded : Option Str
  deriving DecidableEq, Repr

/-- Separator set `" \r\n"` of the PING handler. -/
def pingSeps : Str := [' ', '\r', '\n']

/-- Handling of one received UDP datagram by `_lscp_client_udp_proc`
(client.c:408-438): a `PING` datagram is tokenized into keyword, port and
session-id; an unbound session adopts the received id (first-writer-wins);
then a `PONG <sessid>` is sent back iff the received id equals the (now)
bound id.  Any other datagram is forwarded to the callback. -/
def _lscp_client_udp_step (sessid : Option Str) (dgram : Str) : UdpStepResult :=
  if startsWithCI (strL "PING ") dgram then
    match _lscp_strtok dgram pingSeps with
    | none => ⟨sessid, none, none⟩
    | some (_, r1) =>
      match _lscp_strtok r1 pingSeps with
      | none => ⟨sessid, none, none⟩
      | some (_, r2) =>
        match _lscp_strtok r2 pingSeps with
        | none => ⟨sessid, none, none⟩
        | some (tok, _) =>
          let sid : Option Str :=
            match sessid with
            | none => some tok
            | some s => some s
          match sid with
          | none => ⟨sid, none, none⟩
          | some s =>
            if tok = s then ⟨sid, some (strL "PONG " ++ s ++ strL "\r\n"), none⟩
            else ⟨sid, none, none⟩
  else ⟨sessid, none, some dgram⟩

theorem dropWhileHeadNot (p : Char → Bool) (l : Str) (c : Char) (t : Str)
    (h : l.dropWhile p = c :: t) : p c = false := by
  induction l with
  | nil => simp at h
  | cons a l' ih =>
    by_cases ha : p a
    · rw [List.dropWhile_cons_of_pos ha] at h; exact ih h
    · rw [List.dropWhile_cons_of_neg ha] at h
      obtain ⟨rfl, -⟩ := List.cons.injEq .. ▸ h
      exact Bool.of_not_eq_true ha

theorem strtokRestLenLt (buf seps tok rest : Str)
    (h : _lscp_strtok buf seps = some (tok, rest)) : rest.length < buf.length := by
  simp only [_lscp_strtok] at h
  split at h
  · exact absurd h (by simp)
  · rename_i hne
    obtain ⟨-, h2⟩ := Prod.mk.injEq .. ▸ (Option.some.injEq .. ▸ h)
    set b := buf.dropWhile (fun c => seps.contains c) with hb
    obtain ⟨c, t, hct⟩ : ∃ c t, b = c :: t :=
      List.exists_cons_of_ne_nil (by simpa using hne)
    have hc : seps.contains c = false := dropWhileHeadNot _ buf c t (hb ▸ hct)
    have h4 : (b.dropWhile (fun c => !seps.contains c)).length ≤ t.length := by
      rw [hct, List.dropWhile_cons_of_pos (by simpa using hc)]
      exact dropWhileLenLe _ t
    have h5 : rest.length ≤ (b.dropWhile (fun c => !seps.contains c)).length := by
      rw [← h2]; exact dropWhileLenLe _ _
    have h6 : b.length ≤ buf.length := dropWhileLenLe _ buf
    rw [hct] at h6
    simp at h6
    omega

/-- Field-record separator `":"` of the info parsers. -/
def colonSeps : Str := [':']

/-- Record terminator separators `"\r\n"` of the info parsers. -/
def crlfSeps : Str := ['\r', '\n']

/-- Field loop of `_lscp_driver_info_query` (client.c:331-349): tokenize a
`KEY` up to a colon, fetch its value up to CR/LF, match the key
case-insensitively and store the value; unknown keys are skipped.  A
failed value fetch leaves the cursor in place (the C tokenizer does not
move the cursor when it yields no token). -/
def parseDriverFields (buf : Str) (info : lscp_driver_info_t) : lscp_driver_info_t :=
  match h : _lscp_strtok buf colonSeps with
  | none => info
  | some (tok, rest) =>
    if lowerEq tok (strL "DESCRIPTION") then
      match h2 : _lscp_strtok rest crlfSeps with
      | none => parseDriverFields rest info
      | some (tok2, rest2) =>
        parseDriverFields rest2 { info with description := some (_lscp_unquote tok2) }
    else if lowerEq tok (strL "VERSION") then
      match h2 : _lscp_strtok rest crlfSeps with
      | none => parseDriverFields rest info
      | some (tok2, rest2) =>
        parseDriverFields rest2 { info with version := some (_lscp_unquote tok2) }
    else if lowerEq tok (strL "PARAMETERS") then
      match h2 : _lscp_strtok rest crlfSeps with
      | none => parseDriverFields rest info
      | some (tok2, rest2) =>
        parseDriverFields rest2 { info with parameters := some (_lscp_szsplit_create tok2) }
    else parseDriverFields rest info
  termination_by buf.length
  decreasing_by
  all_goals first
  | exact Nat.lt_trans (strtokRestLenLt _ _ _ _ h2) (strtokRestLenLt _ _ _ _ h)
  | exact strtokRestLenLt _ _ _ _ h

/-- Field loop of `lscp_get_engine_info` (client.c:1265-1278). -/
def parseEngineFields (buf : Str) (info : lscp_engine_info_t) : lscp_engine_info_t :=
  match h : _lscp_strtok buf colonSeps with
  | none => info
  | some (tok, rest) =>
    if lowerEq tok (strL "DESCRIPTION") then
      match h2 : _lscp_strtok rest crlfSeps with
      | none => parseEngineFields rest info
      | some (tok2, rest2) =>
        parseEngineFields rest2 { info with description := some (_lscp_unquote tok2) }
    else if lowerEq tok (strL "VERSION") then
      match h2 : _lscp_strtok rest crlfSeps with
      | none => parseEngineFields rest info
      | some (tok2, rest2) =>
        parseEngineFields rest2 { info with version := some (_lscp_unquote tok2) }
    else parseEngineFields rest info
  termination_by buf.length
  decreasing_by
  all_goals first
  | exact Nat.lt_trans (strtokRestLenLt _ _ _ _ h2) (strtokRestLenLt _ _ _ _ h)
  | exact strtokRestLenLt _ _ _ _ h

/-- Keys recognized by the field cascade of `lscp_get_channel_info`
(client.c:1315-1360). -/
def channelKeys : List Str :=
  [strL "ENGINE_NAME", strL "AUDIO_OUTPUT_DEVICE", strL "AUDIO_OUTPUT_CHANNELS",
   strL "AUDIO_OUTPUT_ROUTING", strL "INSTRUMENT_FILE", strL "INSTRUMENT_NR",
   strL "MIDI_INPUT_DEVICE", strL "MIDI_INPUT_PORT", strL "MIDI_INPUT_CHANNEL",
   strL "VOLUME"]

/-- Whether one branch of the `lscp_get_channel_info` cascade matches the
key token (all comparisons are `strcasecmp`). -/
def isChannelKey (tok : Str) : Bool := channelKeys.any (fun k => lowerEq tok k)

/-- Assignment performed by the matching `lscp_get_channel_info` branch on
its fetched value token (identity on an unrecognized key). -/
def channelFieldSet (info : lscp_channel_info_t) (tok tok2 : Str) : lscp_channel_info_t :=
  if lowerEq tok (strL "ENGINE_NAME") then
    { info with engine_name := some (_lscp_unquote tok2) }
  else if lowerEq tok (strL "AUDIO_OUTPUT_DEVICE") then
    { info with audio_device := atoi (_lscp_ltrim tok2) }
  else if lowerEq tok (strL "AUDIO_OUTPUT_CHANNELS") then
    { info with audio_channels := atoi (_lscp_ltrim tok2) }
  else if lowerEq tok (strL "AUDIO_OUTPUT_ROUTING") then
    { info with audio_routing := some (_lscp_szsplit_create tok2) }
  else if lowerEq tok (strL "INSTRUMENT_FILE") then
    { info with instrument_file := some (_lscp_unquote tok2) }
  else if lowerEq tok (strL "INSTRUMENT_NR") then
    { info with instrument_nr := atoi (_lscp_ltrim tok2) }
  else if lowerEq tok (strL "MIDI_INPUT_DEVICE") then
    { info with midi_device := atoi (_lscp_ltrim tok2) }
  else if lowerEq tok (strL "MIDI_INPUT_PORT") then
    { info with midi_port := atoi (_lscp_ltrim tok2) }
  else if lowerEq tok (strL "MIDI_INPUT_CHANNEL") then
    { info with midi_channel := atoi (_lscp_ltrim tok2) }
  else if lowerEq tok (strL "VOLUME") then
    { info with volume := some (_lscp_ltrim tok2) }
  else info

/-- Field loop of `lscp_get_channel_info` (client.c:1313-1366): a branch
whose key matches fetches the value token up to CR/LF and assigns the
field; unknown keys fetch nothing. -/
def parseChannelFields (buf : Str) (info : lscp_channel_info_t) : lscp_channel_info_t :=
  match h : _lscp_strtok buf colonSeps with
  | none => info
  | some (tok, rest) =>
    if isChannelKey tok then
      match h2 : _lscp_strtok rest crlfSeps with
      | none => parseChannelFields rest info
      | some (tok2, rest2) => parseChannelFields rest2 (channelFieldSet info tok tok2)
    else parseChannelFields rest info
  termination_by buf.length
  decreasing_by
  all_goals first
  | exact Nat.lt_trans (strtokRestLenLt _ _ _ _ h2) (strtokRestLenLt _ _ _ _ h)
  | exact strtokRestLenLt _ _ _ _ h

/-- Which of the two driver-info cache fields a call to
`_lscp_driver_info_query` received a pointer to (`audio_info` from
`lscp_get_audio_driver_info`, `midi_info` from
`lscp_get_midi_driver_info`). -/
inductive DriverSel where
  | audio
  | midi
  deriving DecidableEq, Repr

/-- Read the selected driver-info cache field. -/
def driverCache (c : lscp_client_t) : DriverSel → lscp_driver_info_t
  | .audio => c.audio_info
  | .midi => c.midi_info

/-- Write the selected driver-info cache field. -/
def setDriverCache (c : lscp_client_t) (sel : DriverSel) (info : lscp_driver_info_t) :
    lscp_client_t :=
  match sel with
  | .audio => { c with audio_info := info }
  | .midi => { c with midi_info := info }

/-- Common driver type query `_lscp_driver_info_query` (client.c:317): if
the transaction is not OK, return NULL with the cache untouched; on OK,
reset the cache and repopulate it from the parsed result. -/
def _lscp_driver_info_query (c : lscp_client_t) (sel : DriverSel) (out : CallOutcome) :
    Option lscp_driver_info_t × lscp_client_t :=
  let (ret, c₁) := lscp_client_query_body c out
  if ret ≠ .ok then (none, c₁)
  else
    let info := parseDriverFields (c₁.pszResult.getD []) lscp_driver_info_init
    (some info, setDriverCache c₁ sel info)

/-- Body of `lscp_get_engine_info` (client.c:1247) after the NULL-client
guard: a NULL engine name yields NULL without a transaction; otherwise the
query is issued, and only on OK is the cache reset and repopulated. -/
def lscp_get_engine_info (c : lscp_client_t) (name : Option Str) (out : CallOutcome) :
    Option lscp_engine_info_t × lscp_client_t :=
  match name with
  | none => (none, c)
  | some _ =>
    let (ret, c₁) := lscp_client_query_body c out
    if ret = .ok then
      let info := parseEngineFields (c₁.pszResult.getD []) lscp_engine_info_init
      (some info, { c₁ with engine_info := info })
    else (none, c₁)

/-- Body of `lscp_get_channel_info` (client.c:1295) after the NULL-client
guard: a negative channel yields NULL without a transaction; otherwise the
query is issued, and only on OK is the cache reset and repopulated. -/
def lscp_get_channel_info (c : lscp_client_t) (iSamplerChannel : Int) (out : CallOutcome) :
    Option lscp_channel_info_t × lscp_client_t :=
  if iSamplerChannel < 0 then (none, c)
  else
    let (ret, c₁) := lscp_client_query_body c out
    if ret = .ok then
      let info := parseChannelFields (c₁.pszResult.getD []) lscp_channel_info_init
      (some info, { c₁ with channel_info := info })
    else (none, c₁)

/-- Body of `lscp_get_channel_stream_count` (client.c:1404): `-1` unless
the transaction succeeds, in which case the result text parses with
`atoi`. -/
def lscp_get_channel_stream_count (c : lscp_client_t) (iSamplerChannel : Int)
    (out : CallOutcome) : Int × lscp_client_t :=
  if iSamplerChannel < 0 then (-1, c)
  else
    let (ret, c₁) := lscp_client_query_body c out
    if ret = .ok then (atoi (c₁.pszResult.getD []), c₁) else (-1, c₁)

/-- Separator set `"[]%,"` of the buffer-fill payload parser. -/
def fillSeps : Str := ['[', ']', '%', ',']

/-- Which field of a `lscp_buffer_fill_t` slot a store hits. -/
inductive FillField where
  | stream_id
  | stream_usage
  deriving DecidableEq, Repr

/-- Payload loop of `lscp_get_channel_buffer_fill` (client.c:1465-1477):
while a token remains and `iStream` is below the stream count, store the
first token as slot `iStream`'s `stream_id`, fetch the second token —
breaking out of the loop when it is missing, the `stream_id` store
already performed — otherwise store it as the slot's `stream_usage` and
advance `iStream`.  The returned list records every field store as
`(index, field, value)` in program order, the partial store of the break
path included. -/
def fillLoop (buf : Str) (iStream : Nat) (n : Int) : List (Nat × FillField × Int) :=
  match h : _lscp_strtok buf fillSeps with
  | none => []
  | some (tok, rest) =>
    if (iStream : Int) < n then
      if tok.isEmpty then fillLoop rest iStream n
      else
        match h2 : _lscp_strtok rest fillSeps with
        | none => [(iStream, FillField.stream_id, atoi tok)]
        | some (tok2, rest2) =>
          (iStream, FillField.stream_id, atoi tok)
            :: (iStream, FillField.stream_usage, atoi tok2)
            :: fillLoop rest2 (iStream + 1) n
    else []
  termination_by buf.length
  decreasing_by
  · exact strtokRestLenLt _ _ _ _ h
  · exact Nat.lt_trans (strtokRestLenLt _ _ _ _ h2) (strtokRestLenLt _ _ _ _ h)

/-- Resolution of the stream count at the top of
`lscp_get_channel_buffer_fill` (client.c:1438-1449): the cached count, or,
when that is below one, the result of a `GET CHANNEL STREAM_COUNT`
transaction. -/
def resolvedStreamCount (c : lscp_client_t) (iSamplerChannel : Int) (countOut : CallOutcome) :
    Int × lscp_client_t :=
  if c.iStreamCount < 1 then lscp_get_channel_stream_count c iSamplerChannel countOut
  else (c.iStreamCount, c)

/-- Result of one `lscp_get_channel_buffer_fill` call: the returned
pointer (the allocation id of the array, or `none` for NULL), the client
state after the call, and the slot writes performed by the payload
parse. -/
structure BufferFillResult where
  ret : Option Nat
  client : lscp_client_t
  writes : List (Nat × FillField × Int)
  deriving DecidableEq, Repr

/-- Body of `lscp_get_channel_buffer_fill` (client.c:1434) after the
NULL-client guard: resolve the stream count (querying it when the cache
holds less than one), bail out if it is still below one, free and
reallocate the result array exactly when the resolved count differs from
the cached `iStreamCount`, then issue the buffer-fill query and parse the
payload pairs positionally. -/
def lscp_get_channel_buffer_fill (c : lscp_client_t) (iSamplerChannel : Int)
    (countOut fillOut : CallOutcome) : BufferFillResult :=
  if iSamplerChannel < 0 then ⟨none, c, []⟩
  else
    let (n, c₁) := resolvedStreamCount c iSamplerChannel countOut
    if n < 1 then ⟨none, c₁, []⟩
    else
      let c₂ :=
        if c₁.iStreamCount ≠ n then
          { c₁ with buffer_fill := some (c₁.nextAllocId, n.toNat),
                    nextAllocId := c₁.nextAllocId + 1,
                    iStreamCount := n }
        else c₁
      let (ret, c₃) := lscp_client_query_body c₂ fillOut
      if ret = .ok then
        ⟨c₃.buffer_fill.map Prod.fst, c₃, fillLoop (c₃.pszResult.getD []) 0 c₃.iStreamCount⟩
      else ⟨none, c₃, []⟩

/-- Separator set `"[]"` of the subscribe response parser. -/
def bracketSeps : Str := ['[', ']']

/-- Body of `lscp_client_subscribe` (client.c:957): fails immediately when
a session-id is already bound; otherwise issues the SUBSCRIBE transaction
and, on OK, adopts the bracketed session-id of an `OK[sessid]` result
text, if present. -/
def lscp_client_subscribe (c : lscp_client_t) (out : CallOutcome) :
    LscpStatus × lscp_client_t :=
  if c.sessid.isSome then (.failed, c)
  else
    let (ret, c₁) := lscp_client_query_body c out
    if ret = .ok then
      match c₁.pszResult with
      | none => (ret, c₁)
      | some res =>
        match _lscp_strtok res bracketSeps with
        | none => (ret, c₁)
        | some (tok1, rest) =>
          if lowerEq tok1 (strL "OK") then
            match _lscp_strtok rest bracketSeps with
            | none => (ret, c₁)
            | some (tok2, _) => (ret, { c₁ with sessid := some tok2 })
          else (ret, c₁)
    else (ret, c₁)

/-- Body of `lscp_client_unsubscribe` (client.c:997): fails immediately
when no session-id is bound; otherwise issues the UNSUBSCRIBE transaction
and, on OK, unconditionally clears the bound session-id. -/
def lscp_client_unsubscribe (c : lscp_client_t) (out : CallOutcome) :
    LscpStatus × lscp_client_t :=
  match c.sessid with
  | none => (.failed, c)
  | some _ =>
    let (ret, c₁) := lscp_client_query_body c out
    if ret = .ok then (ret, { c₁ with sessid := none }) else (ret, c₁)

/-!
Public entry points with their NULL-client guards, over
`Option lscp_client_t` (`none` models a NULL client pointer).  Each
definition mirrors the guard at the top of the C function and defers to
the corresponding body.
-/
namespace NullChecked

/-- `lscp_client_query` (client.c:848): NULL client fails before any
transaction. -/
def lscp_client_query (c : Option lscp_client_t) (out : CallOutcome) :
    LscpStatus × Option lscp_client_t :=
  match c with
  | none => (.failed, none)
  | some cl =>
    let (ret, cl₁) := lscp_client_query_body cl out
    (ret, some cl₁)

/-- `lscp_client_set_timeout` (client.c:792). -/
def lscp_client_set_timeout (c : Option lscp_client_t) (iTimeout : Int) :
    LscpStatus × Option lscp_client_t :=
  match c with
  | none => (.failed, none)
  | some cl =>
    if iTimeout < 0 then (.failed, some cl)
    else (.ok, some { cl with iTimeout := iTimeout })

/-- `lscp_client_get_timeout` (client.c:811). -/
def lscp_client_get_timeout : Option lscp_client_t → Int
  | none => -1
  | some cl => cl.iTimeout

/-- `lscp_client_get_result` (client.c:920). -/
def lscp_client_get_result : Option lscp_client_t → Option Str
  | none => none
  | some cl => cl.pszResult

/-- `lscp_client_get_errno` (client.c:937). -/
def lscp_client_get_errno : Option lscp_client_t → Int
  | none => -1
  | some cl => cl.iErrno

/-- `lscp_client_destroy` (client.c:666): frees the whole client state. -/
def lscp_client_destroy : Option lscp_client_t → LscpStatus × Option lscp_client_t
  | none => (.failed, none)
  | some _ => (.ok, none)

/-- `lscp_client_join` (client.c:643). -/
def lscp_client_join : Option lscp_client_t → LscpStatus
  | none => .failed
  | some _ => .ok

end NullChecked

/-!
Supporting lemmas about the string utilities on structured inputs.
-/

theorem takeWhileAppendAll (p : Char → Bool) (a b : Str) (h : ∀ c ∈ a, p c = true) :
    (a ++ b).takeWhile p = a ++ b.takeWhile p := by
  induction a with
  | nil => simp
  | cons x xs ih =>
    have hx : p x = true := h x (List.mem_cons_self x xs)
    simp only [List.cons_append, List.takeWhile_cons_of_pos hx]
    rw [ih (fun c hc => h c (List.mem_cons_of_mem x hc))]

theorem dropWhileAppendAll (p : Char → Bool) (a b : Str) (h : ∀ c ∈ a, p c = true) :
    (a ++ b).dropWhile p = b.dropWhile p := by
  induction a with
  | nil => simp
  | cons x xs ih =>
    have hx : p x = true := h x (List.mem_cons_self x xs)
    simp only [List.cons_append, List.dropWhile_cons_of_pos hx]
    exact ih (fun c hc => h c (List.mem_cons_of_mem x hc))

theorem dropWhileAllFalse (p : Char → Bool) (a : Str) (h : ∀ c ∈ a, p c = false) :
    a.dropWhile p = a := by
  cases a with
  | nil => rfl
  | cons x xs =>
    exact List.dropWhile_cons_of_neg (by simp [h x (List.mem_cons_self x xs)])

theorem takeWhileAllFalse (p : Char → Bool) (a : Str) (h : ∀ c ∈ a, p c = false) :
    a.takeWhile p = [] := by
  cases a with
  | nil => rfl
  | cons x xs =>
    exact List.takeWhile_cons_of_neg (by simp [h x (List.mem_cons_self x xs)])

theorem containsNeg (seps : Str) (c : Char) (h : seps.contains c = false) :
    ¬ ((fun c => seps.contains c) c = true) := by
  intro hc
  have hc' : seps.contains c = true := hc
  rw [h] at hc'
  cases hc'

theorem bnotContainsPos (seps : Str) (c : Char) (h : seps.contains c = false) :
    (fun c => !seps.contains c) c = true := by
  show (!(seps.contains c)) = true
  rw [h]
  rfl

theorem bnotContainsNeg (seps : Str) (c : Char) (h : seps.contains c = true) :
    ¬ ((fun c => !seps.contains c) c = true) := by
  intro hc
  have hc' : (!(seps.contains c)) = true := hc
  rw [h] at hc'
  cases hc'

/-- The tokenizer on a buffer that is one clean token: the whole buffer is
the token and the cursor reaches the end. -/
theorem strtokWhole (tok seps : Str) (ht : tok ≠ [])
    (hn : ∀ c ∈ tok, seps.contains c = false) :
    _lscp_strtok tok seps = some (tok, []) := by
  have hd : tok.dropWhile (fun c => seps.contains c) = tok :=
    dropWhileAllFalse _ tok hn
  simp only [_lscp_strtok, hd]
  rw [if_neg (by simpa using ht)]
  have h1 : tok.takeWhile (fun c => !seps.contains c) = tok := by
    have := takeWhileAppendAll (fun c => !seps.contains c) tok []
      (fun c hc => bnotContainsPos seps c (hn c hc))
    simpa using this
  have h2 : tok.dropWhile (fun c => !seps.contains c) = [] := by
    have := dropWhileAppendAll (fun c => !seps.contains c) tok []
      (fun c hc => bnotContainsPos seps c (hn c hc))
    simpa using this
  rw [h1, h2]
  rfl

/-- The tokenizer on a buffer of the form `tok ++ sep :: rest` with a
clean leading token: the token is split off and the cursor drops the
separator run that follows it. -/
theorem strtokSplit (tok seps : Str) (s : Char) (rest : Str) (ht : tok ≠ [])
    (hn : ∀ c ∈ tok, seps.contains c = false) (hs : seps.contains s = true) :
    _lscp_strtok (tok ++ s :: rest) seps
      = some (tok, rest.dropWhile (fun c => seps.contains c)) := by
  obtain ⟨x, xs, rfl⟩ := List.exists_cons_of_ne_nil ht
  have hx : seps.contains x = false := hn x (List.mem_cons_self x xs)
  have hd : ((x :: xs) ++ s :: rest).dropWhile (fun c => seps.contains c)
      = (x :: xs) ++ s :: rest := by
    have h0 : ((x :: (xs ++ s :: rest)) : Str).dropWhile (fun c => seps.contains c)
        = x :: (xs ++ s :: rest) :=
      List.dropWhile_cons_of_neg (containsNeg seps x hx)
    simpa using h0
  simp only [_lscp_strtok, hd]
  rw [if_neg (by simp)]
  have h1 : ((x :: xs) ++ s :: rest).takeWhile (fun c => !seps.contains c) = x :: xs := by
    rw [takeWhileAppendAll _ _ _ (fun c hc => bnotContainsPos seps c (hn c hc))]
    have h0 : ((s :: rest) : Str).takeWhile (fun c => !seps.contains c) = [] :=
      List.takeWhile_cons_of_neg (bnotContainsNeg seps s hs)
    rw [h0]
    simp
  have h2 : ((x :: xs) ++ s :: rest).dropWhile (fun c => !seps.contains c) = s :: rest := by
    rw [dropWhileAppendAll _ _ _ (fun c hc => bnotContainsPos seps c (hn c hc))]
    exact List.dropWhile_cons_of_neg (bnotContainsNeg seps s hs)
  rw [h1, h2]
  have h3 : ((s :: rest) : Str).dropWhile (fun c => seps.contains c)
      = rest.dropWhile (fun c => seps.contains c) :=
    List.dropWhile_cons_of_pos (by exact hs)
  rw [h3]

/-- Case-insensitive prefix of an append. -/
theorem startsWithCIAppend (pre rest : Str) : startsWithCI pre (pre ++ rest) = true := by
  simp [startsWithCI, lowerEq, List.take_left]

/-- Case-insensitive prefix test fails on a folded-head mismatch. -/
theorem startsWithCIConsFalse (x y : Char) (pre s : Str) (h : ¬ x.toLower = y.toLower) :
    startsWithCI (x :: pre) (y :: s) = false := by
  simp only [startsWithCI, lowerEq, List.length_cons, List.take_succ_cons, List.map_cons]
  simp [Ne.symm h]

/-- `trimCrLf` strips nothing from a CR/LF-free string. -/
theorem trimCrLfNoCrLf (a : Str) (h : ∀ c ∈ a, isCrLf c = false) : trimCrLf a = a := by
  unfold trimCrLf
  rw [dropWhileAllFalse _ _ (fun c hc => h c (List.mem_reverse.mp hc))]
  exact List.reverse_reverse a

/-- `trimCrLf` strips exactly a trailing CR/LF run off a CR/LF-free
prefix. -/
theorem trimCrLfAppend (a b : Str) (ha : ∀ c ∈ a, isCrLf c = false)
    (hb : ∀ c ∈ b, isCrLf c = true) : trimCrLf (a ++ b) = a := by
  unfold trimCrLf
  rw [List.reverse_append]
  rw [dropWhileAppendAll _ _ _ (fun c hc => hb c (List.mem_reverse.mp hc))]
  rw [dropWhileAllFalse _ _ (fun c hc => ha c (List.mem_reverse.mp hc))]
  exact List.reverse_reverse a

theorem atoiDigitsFoldl (s : Str) (acc : Nat) (h : ∀ c ∈ s, c.isDigit = true) :
    atoiDigits s acc = s.foldl (fun a c => 10 * a + (c.toNat - 48)) acc := by
  induction s generalizing acc with
  | nil => rfl
  | cons c rest ih =>
    have hc : c.isDigit = true := h c (List.mem_cons_self c rest)
    simp only [atoiDigits, hc, if_pos, List.foldl_cons]
    exact ih _ (fun d hd => h d (List.mem_cons_of_mem c hd))

theorem digitNotSpace (c : Char) (h : c.isDigit = true) : isSpaceC c = false := by
  simp only [isSpaceC, Bool.or_eq_false_iff, beq_eq_false_iff_ne, ne_eq]
  refine ⟨⟨⟨⟨⟨?_, ?_⟩, ?_⟩, ?_⟩, ?_⟩, ?_⟩ <;>
    (intro hc; subst hc; exact absurd h (by decide))

theorem digitNotSign (c : Char) (h : c.isDigit = true) : ¬ c = '-' ∧ ¬ c = '+' := by
  constructor <;> (intro hc; subst hc; exact absurd h (by decide))

/-- C `atoi` of a pure digit string is its decimal value. -/
theorem atoiAllDigits (code : Str) (hne : code ≠ [])
    (h : ∀ c ∈ code, c.isDigit = true) : atoi code = (decValue code : Int) := by
  obtain ⟨x, xs, rfl⟩ := List.exists_cons_of_ne_nil hne
  have hx : x.isDigit = true := h x (List.mem_cons_self x xs)
  have hd : (x :: xs).dropWhile isSpaceC = x :: xs :=
    dropWhileAllFalse _ _ (fun c hc => digitNotSpace c (h c hc))
  obtain ⟨hm, hp⟩ := digitNotSign x hx
  simp only [atoi, hd, if_neg hm, if_neg hp]
  rw [atoiDigitsFoldl _ _ h]
  rfl

/-!
Claim theorems.
-/

/-- Concrete client state used by counterexamples and witnesses: a fresh
client (as set up by `lscp_client_create`) whose last transaction stored
protocol error code 5. -/
def sampleClient : lscp_client_t :=
  { sessid := none, audio_info := lscp_driver_info_init,
    midi_info := lscp_driver_info_init, engine_info := lscp_engine_info_init,
    channel_info := lscp_channel_info_init, pszResult := some (strL "Invalid channel"),
    iErrno := 5, buffer_fill := none, nextAllocId := 0, iStreamCount := 0,
    iTimeout := 200 }

/-- C1, counterexample: a timeout in `lscp_client_query` does modify the
stored error code — a client whose stored errno is 5 comes out of a
timed-out query with errno `-1`, not 5. -/
theorem C1_counterexample :
    (lscp_client_query_body sampleClient .timeout).2.iErrno ≠ sampleClient.iErrno ∧
    (lscp_client_query_body sampleClient .timeout).2.iErrno = -1 := by
  constructor
  · decide
  · decide

/-- C1, amended: when `lscp_client_call` reports TIMEOUT inside
`lscp_client_query`, the query returns TIMEOUT, the stored result text
becomes the fixed timeout message, and the stored numeric error code is
set to `-1` (the pre-parse sentinel), overwriting whatever value it had
before the call. -/
theorem C1_amended_timeout (c : lscp_client_t) :
    lscp_client_query_body c .timeout
      = (.timeout, { c with pszResult := some timeoutMsg, iErrno := -1 }) := rfl

/-- C2, counterexample: a `PING` datagram carrying a session-id, received
while the session has no bound id, adopts the id and *does* send a reply —
the freshly adopted id trivially matches, so a `PONG` goes back to the
sender, contradicting the claim that adoption triggers no reply. -/
theorem C2_counterexample :
    (_lscp_client_udp_step none (strL "PING 5000 abc123")).sessid
        = some (strL "abc123") ∧
    (_lscp_client_udp_step none (strL "PING 5000 abc123")).pong
        = some (strL "PONG abc123\r\n") := by
  constructor
  · decide
  · decide

/-- C8, counterexample: unquoting the bare text `  foo  ` yields
`foo  ` — only the leading whitespace is trimmed, the trailing whitespace
survives — so it does not yield `foo` as claimed. -/
theorem C8_counterexample :
    _lscp_unquote (strL "  foo  ") = strL "foo  " ∧ ¬ strL "foo  " = strL "foo" := by
  constructor
  · decide
  · decide

/-- C10: every public client operation invoked with a NULL client pointer
returns its failure value without performing any transaction:
`lscp_client_query` (for every transaction oracle), `lscp_client_set_timeout`
(for every timeout argument), `lscp_client_destroy` and `lscp_client_join`
return LSCP_FAILED; `lscp_client_get_result` returns NULL; and
`lscp_client_get_errno` and `lscp_client_get_timeout` return `-1`. -/
theorem C10_null_client_guards :
    (∀ out : CallOutcome, NullChecked.lscp_client_query none out = (.failed, none)) ∧
    (∀ t : Int, NullChecked.lscp_client_set_timeout none t = (.failed, none)) ∧
    NullChecked.lscp_client_destroy none = (.failed, none) ∧
    NullChecked.lscp_client_join none = .failed ∧
    NullChecked.lscp_client_get_result none = none ∧
    NullChecked.lscp_client_get_errno none = -1 ∧
    NullChecked.lscp_client_get_timeout none = -1 :=
  ⟨fun _ => rfl, fun _ => rfl, rfl, rfl, rfl, rfl, rfl⟩

theorem digitNotQuerySep (c : Char) (h : c.isDigit = true) :
    querySeps.contains c = false := by
  cases hc : querySeps.contains c
  · rfl
  · exfalso
    have hm : c ∈ querySeps := by simpa using hc
    simp only [querySeps, List.mem_cons, List.not_mem_nil, or_false] at hm
    rcases hm with rfl | rfl | rfl <;> exact absurd h (by decide)

theorem digitNotCrLf (c : Char) (h : c.isDigit = true) : isCrLf c = false := by
  simp only [isCrLf, Bool.or_eq_false_iff, beq_eq_false_iff_ne, ne_eq]
  constructor <;> (intro hc; subst hc; exact absurd h (by decide))

/-- Classification of an `ERR:`-prefixed trimmed response is ERROR, in
every parse branch. -/
theorem queryClassifyErrStatus (a : Str) (h : startsWithCI (strL "ERR:") a = true) :
    (queryClassify a).1 = .error := by
  unfold queryClassify
  simp only [h, if_true]
  split
  · simp_all
  · split
    · rfl
    · split
      · rfl
      · split <;> rfl

/-- Full classification of a well-formed `ERR:<code>:<message>` trimmed
response. -/
theorem queryClassifyErrParse (code msg : Str) (hcn : code ≠ [])
    (hcd : ∀ ch ∈ code, ch.isDigit = true) (hmn : msg ≠ [])
    (hms : ∀ ch ∈ msg, querySeps.contains ch = false) :
    queryClassify (strL "ERR:" ++ code ++ ':' :: msg)
      = (.error, some msg, (decValue code : Int)) := by
  have h0 : startsWithCI (strL "ERR:") (strL "ERR:" ++ (code ++ ':' :: msg)) = true :=
    startsWithCIAppend (strL "ERR:") (code ++ ':' :: msg)
  obtain ⟨x, xs, hxx⟩ := List.exists_cons_of_ne_nil hcn
  have hx : querySeps.contains x = false :=
    digitNotQuerySep x (hcd x (hxx ▸ List.mem_cons_self x xs))
  have ht1 : _lscp_strtok (strL "ERR:" ++ code ++ ':' :: msg) querySeps
      = some (strL "ERR", code ++ ':' :: msg) := by
    have hstep : _lscp_strtok (strL "ERR" ++ ':' :: (code ++ ':' :: msg)) querySeps
        = some (strL "ERR", (code ++ ':' :: msg).dropWhile (fun c => querySeps.contains c)) :=
      strtokSplit (strL "ERR") querySeps ':' (code ++ ':' :: msg)
        (by decide) (by decide) (by decide)
    have hd : (code ++ ':' :: msg).dropWhile (fun c => querySeps.contains c)
        = code ++ ':' :: msg := by
      subst hxx
      exact List.dropWhile_cons_of_neg (containsNeg querySeps x hx)
    rw [hd] at hstep
    exact hstep
  have ht2 : _lscp_strtok (code ++ ':' :: msg) querySeps
      = some (code, msg) := by
    have hstep := strtokSplit code querySeps ':' msg hcn
      (fun c hc => digitNotQuerySep c (hcd c hc)) (by decide)
    have hd : msg.dropWhile (fun c => querySeps.contains c) = msg :=
      dropWhileAllFalse _ msg hms
    rw [hd] at hstep
    exact hstep
  have ht3 : _lscp_strtok msg querySeps = some (msg, []) :=
    strtokWhole msg querySeps hmn hms
  have hnotok : startsWithCI (strL "ERR:") (strL "ERR:" ++ code ++ ':' :: msg) = true := h0
  unfold queryClassify
  simp only [hnotok, if_true, ht1, ht2, ht3]
  have hdec : atoi code = (decValue code : Int) := atoiAllDigits code hcn hcd
  simp [hdec]

/-- C4: for every response whose trimmed text starts with `ERR:`,
`lscp_client_query` returns ERROR; and on a colon-delimited
`ERR:<code>:<message>` response (digit code, separator-free message) it
stores the numeric code field as the error code and the message field as
the result text.  The concrete instance `ERR:5:Invalid channel\r\n` is the
witness. -/
theorem C4_error_response_parse :
    (∀ (c : lscp_client_t) (raw : Str),
      startsWithCI (strL "ERR:") (trimCrLf raw) = true →
      (lscp_client_query_body c (.received raw)).1 = .error) ∧
    (∀ (c : lscp_client_t) (code msg : Str),
      code ≠ [] → (∀ ch ∈ code, ch.isDigit = true) →
      msg ≠ [] → (∀ ch ∈ msg, querySeps.contains ch = false ∧ isCrLf ch = false) →
      lscp_client_query_body c
          (.received (strL "ERR:" ++ code ++ ':' :: msg ++ strL "\r\n"))
        = (.error, { c with pszResult := some (_lscp_ltrim msg),
                            iErrno := (decValue code : Int) })) := by
  constructor
  · intro c raw h
    have hs := queryClassifyErrStatus (trimCrLf raw) h
    rcases hq : queryClassify (trimCrLf raw) with ⟨ret, res, e⟩
    rw [hq] at hs
    simp only [lscp_client_query_body, hq]
    exact hs
  · intro c code msg hcn hcd hmn hmprop
    have hms : ∀ ch ∈ msg, querySeps.contains ch = false := fun ch hc => (hmprop ch hc).1
    have hmc : ∀ ch ∈ msg, isCrLf ch = false := fun ch hc => (hmprop ch hc).2
    have hre : strL "ERR:" ++ code ++ ':' :: msg ++ strL "\r\n"
        = (strL "ERR:" ++ code ++ ':' :: msg) ++ strL "\r\n" := by
      simp [List.append_assoc]
    have htrim : trimCrLf ((strL "ERR:" ++ code ++ ':' :: msg) ++ strL "\r\n")
        = strL "ERR:" ++ code ++ ':' :: msg := by
      have herr : ∀ ch ∈ strL "ERR:", isCrLf ch = false := by decide
      apply trimCrLfAppend
      · intro ch hc
        rcases List.mem_append.mp hc with h1 | h1
        · rcases List.mem_append.mp h1 with h2 | h2
          · exact herr ch h2
          · exact digitNotCrLf ch (hcd ch h2)
        · rcases List.mem_cons.mp h1 with rfl | h3
          · decide
          · exact hmc ch h3
      · decide
    have hcls := queryClassifyErrParse code msg hcn hcd hmn hms
    simp only [lscp_client_query_body, hre, htrim, hcls]
    rfl

/-- Classification of a well-formed tagged success `OK[<payload>]`
trimmed response. -/
theorem queryClassifyOkBracket (p : Str) (hne : p ≠ [])
    (hp : ∀ ch ∈ p, querySeps.contains ch = false) :
    queryClassify (strL "OK[" ++ p ++ strL "]") = (.ok, some p, 0) := by
  obtain ⟨x, xs, hxx⟩ := List.exists_cons_of_ne_nil hne
  have hx : querySeps.contains x = false := hp x (hxx ▸ List.mem_cons_self x xs)
  have h1 : startsWithCI (strL "ERR:") (strL "OK[" ++ p ++ strL "]") = false :=
    startsWithCIConsFalse 'E' 'O' (strL "RR:") ((strL "K[" ++ p) ++ strL "]") (by decide)
  have h2 : startsWithCI (strL "WRN:") (strL "OK[" ++ p ++ strL "]") = false :=
    startsWithCIConsFalse 'W' 'O' (strL "RN:") ((strL "K[" ++ p) ++ strL "]") (by decide)
  have h3 : startsWithCI (strL "OK[") (strL "OK[" ++ p ++ strL "]") = true :=
    startsWithCIAppend (strL "OK[") (p ++ strL "]")
  have ht1 : _lscp_strtok (strL "OK[" ++ p ++ strL "]") querySeps
      = some (strL "OK", p ++ strL "]") := by
    have hstep : _lscp_strtok (strL "OK" ++ '[' :: (p ++ strL "]")) querySeps
        = some (strL "OK", (p ++ strL "]").dropWhile (fun c => querySeps.contains c)) :=
      strtokSplit (strL "OK") querySeps '[' (p ++ strL "]") (by decide) (by decide) (by decide)
    have hd : (p ++ strL "]").dropWhile (fun c => querySeps.contains c) = p ++ strL "]" := by
      subst hxx
      have h0 : ((x :: (xs ++ strL "]")) : Str).dropWhile (fun c => querySeps.contains c)
          = x :: (xs ++ strL "]") :=
        List.dropWhile_cons_of_neg (containsNeg querySeps x hx)
      simpa using h0
    rw [hd] at hstep
    exact hstep
  have ht2 : _lscp_strtok (p ++ strL "]") querySeps = some (p, []) := by
    have hstep := strtokSplit p querySeps ']' [] hne hp (by decide)
    exact hstep
  unfold queryClassify
  simp only [h1, h2, h3, Bool.false_eq_true, if_false, if_true, ht1, ht2]

/-- Classification of a plain success response: the whole trimmed text is
the result with errno 0. -/
theorem queryClassifyPlain (a : Str)
    (h1 : startsWithCI (strL "ERR:") a = false)
    (h2 : startsWithCI (strL "WRN:") a = false)
    (h3 : startsWithCI (strL "OK[") a = false) :
    queryClassify a = (.ok, some a, 0) := by
  unfold queryClassify
  simp only [h1, h2, h3, Bool.false_eq_true, if_false]
  rfl

/-- C5: a response classified OK has trailing CR/LF stripped and errno set
to 0; a tagged `OK[<payload>]` response stores the bracketed payload as
the result text, and any other non-ERR/WRN response stores the whole
trimmed text.  The concrete instance `OK[42]\r\n` is the witness. -/
theorem C5_ok_response_parse :
    (∀ (c : lscp_client_t) (p : Str), p ≠ [] →
      (∀ ch ∈ p, querySeps.contains ch = false ∧ isCrLf ch = false) →
      lscp_client_query_body c (.received (strL "OK[" ++ p ++ strL "]\r\n"))
        = (.ok, { c with pszResult := some (_lscp_ltrim p), iErrno := 0 })) ∧
    (∀ (c : lscp_client_t) (a : Str),
      startsWithCI (strL "ERR:") a = false → startsWithCI (strL "WRN:") a = false →
      startsWithCI (strL "OK[") a = false → (∀ ch ∈ a, isCrLf ch = false) →
      lscp_client_query_body c (.received (a ++ strL "\r\n"))
        = (.ok, { c with pszResult := some (_lscp_ltrim a), iErrno := 0 })) := by
  constructor
  · intro c p hne hp
    have hok : ∀ ch ∈ strL "OK[", isCrLf ch = false := by decide
    have hre : strL "OK[" ++ p ++ strL "]\r\n"
        = (strL "OK[" ++ p ++ strL "]") ++ strL "\r\n" := by
      rw [show strL "]\r\n" = strL "]" ++ strL "\r\n" from rfl, ← List.append_assoc]
    have htrim : trimCrLf ((strL "OK[" ++ p ++ strL "]") ++ strL "\r\n")
        = strL "OK[" ++ p ++ strL "]" := by
      apply trimCrLfAppend
      · intro ch hc
        rcases List.mem_append.mp hc with h1 | h1
        · rcases List.mem_append.mp h1 with h2 | h2
          · exact hok ch h2
          · exact (hp ch h2).2
        · rcases List.mem_cons.mp h1 with rfl | h3
          · decide
          · simp at h3
      · decide
    have hcls := queryClassifyOkBracket p hne (fun ch hc => (hp ch hc).1)
    simp only [lscp_client_query_body, hre, htrim, hcls]
    rfl
  · intro c a h1 h2 h3 hcr
    have htrim : trimCrLf (a ++ strL "\r\n") = a :=
      trimCrLfAppend a (strL "\r\n") hcr (by decide)
    have hcls := queryClassifyPlain a h1 h2 h3
    simp only [lscp_client_query_body, htrim, hcls]
    rfl

theorem C4_witness :
    lscp_client_query_body sampleClient (.received (strL "ERR:5:Invalid channel\r\n"))
      = (.error,
         { sampleClient with pszResult := some (strL "Invalid channel"), iErrno := 5 }) :=
  C4_error_response_parse.2 sampleClient (strL "5") (strL "Invalid channel")
    (by decide) (by decide) (by decide) (by decide)

theorem C5_witness :
    lscp_client_query_body sampleClient (.received (strL "OK[42]\r\n"))
      = (.ok, { sampleClient with pszResult := some (strL "42"), iErrno := 0 }) :=
  C5_ok_response_parse.1 sampleClient (strL "42") (by decide) (by decide)

/-- Tokenization of a well-formed `PING <port> <sessid>` datagram by the
UDP handler's three tokenizer calls. -/
theorem pingTokens (port id : Str) (hp : port ≠ []) (hi : id ≠ [])
    (hps : ∀ ch ∈ port, pingSeps.contains ch = false)
    (his : ∀ ch ∈ id, pingSeps.contains ch = false) :
    _lscp_strtok (strL "PING " ++ port ++ ' ' :: id) pingSeps
        = some (strL "PING", port ++ ' ' :: id) ∧
    _lscp_strtok (port ++ ' ' :: id) pingSeps = some (port, id) ∧
    _lscp_strtok id pingSeps = some (id, []) := by
  obtain ⟨x, xs, hxx⟩ := List.exists_cons_of_ne_nil hp
  have hx : pingSeps.contains x = false := hps x (hxx ▸ List.mem_cons_self x xs)
  obtain ⟨y, ys, hyy⟩ := List.exists_cons_of_ne_nil hi
  have hy : pingSeps.contains y = false := his y (hyy ▸ List.mem_cons_self y ys)
  refine ⟨?_, ?_, ?_⟩
  · have hstep : _lscp_strtok (strL "PING" ++ ' ' :: (port ++ ' ' :: id)) pingSeps
        = some (strL "PING", (port ++ ' ' :: id).dropWhile (fun c => pingSeps.contains c)) :=
      strtokSplit (strL "PING") pingSeps ' ' (port ++ ' ' :: id)
        (by decide) (by decide) (by decide)
    have hd : (port ++ ' ' :: id).dropWhile (fun c => pingSeps.contains c)
        = port ++ ' ' :: id := by
      subst hxx
      have h0 : ((x :: (xs ++ ' ' :: id)) : Str).dropWhile (fun c => pingSeps.contains c)
          = x :: (xs ++ ' ' :: id) :=
        List.dropWhile_cons_of_neg (containsNeg pingSeps x hx)
      simpa using h0
    rw [hd] at hstep
    exact hstep
  · have hstep := strtokSplit port pingSeps ' ' id hp hps (by decide)
    have hd : id.dropWhile (fun c => pingSeps.contains c) = id :=
      dropWhileAllFalse _ id his
    rw [hd] at hstep
    exact hstep
  · exact strtokWhole id pingSeps hi his

/-- C2, amended: when the UDP listener receives a well-formed
`PING <port> <sessid>` datagram, a session with no bound id adopts the
received id (first-writer-wins) and immediately replies
`PONG <sessid>` to the sender, since the freshly adopted id matches; a
session with a bound id replies `PONG` exactly when the received id
matches the bound one, and a non-matching id neither replaces the bound
id nor triggers any reply. -/
theorem C2_amended_ping_handling :
    (∀ (port id : Str), port ≠ [] → id ≠ [] →
      (∀ ch ∈ port, pingSeps.contains ch = false) →
      (∀ ch ∈ id, pingSeps.contains ch = false) →
      _lscp_client_udp_step none (strL "PING " ++ port ++ ' ' :: id)
        = ⟨some id, some (strL "PONG " ++ id ++ strL "\r\n"), none⟩) ∧
    (∀ (s port id : Str), port ≠ [] → id ≠ [] →
      (∀ ch ∈ port, pingSeps.contains ch = false) →
      (∀ ch ∈ id, pingSeps.contains ch = false) →
      _lscp_client_udp_step (some s) (strL "PING " ++ port ++ ' ' :: id)
        = if id = s
          then ⟨some s, some (strL "PONG " ++ s ++ strL "\r\n"), none⟩
          else ⟨some s, none, none⟩) := by
  have hping : ∀ (rest : Str),
      startsWithCI (strL "PING ") (strL "PING " ++ rest) = true :=
    fun rest => startsWithCIAppend (strL "PING ") rest
  constructor
  · intro port id hp hi hps his
    obtain ⟨ht1, ht2, ht3⟩ := pingTokens port id hp hi hps his
    have hp1 : startsWithCI (strL "PING ") (strL "PING " ++ port ++ ' ' :: id) = true :=
      hping (port ++ ' ' :: id)
    unfold _lscp_client_udp_step
    simp only [hp1, if_true, ht1, ht2, ht3, if_pos rfl]
  · intro s port id hp hi hps his
    obtain ⟨ht1, ht2, ht3⟩ := pingTokens port id hp hi hps his
    have hp1 : startsWithCI (strL "PING ") (strL "PING " ++ port ++ ' ' :: id) = true :=
      hping (port ++ ' ' :: id)
    unfold _lscp_client_udp_step
    simp only [hp1, if_true, ht1, ht2, ht3]

theorem C2_amended_witness :
    _lscp_client_udp_step none (strL "PING 5000 abc123")
      = ⟨some (strL "abc123"), some (strL "PONG abc123\r\n"), none⟩ ∧
    _lscp_client_udp_step (some (strL "abc123")) (strL "PING 5000 zzz")
      = ⟨some (strL "abc123"), none, none⟩ := by
  constructor
  · exact C2_amended_ping_handling.1 (strL "5000") (strL "abc123")
      (by decide) (by decide) (by decide) (by decide)
  · have h := C2_amended_ping_handling.2 (strL "abc123") (strL "5000") (strL "zzz")
      (by decide) (by decide) (by decide) (by decide)
    rw [if_neg (by decide)] at h
    exact h

/-- The transaction body only ever rewrites the result record: its client
state after the call is `_lscp_client_set_result` of the old state. -/
theorem queryBodySndShape (c : lscp_client_t) (out : CallOutcome) :
    ∃ res e, (lscp_client_query_body c out).2 = _lscp_client_set_result c res e := by
  cases out with
  | received raw =>
    rcases h : queryClassify (trimCrLf raw) with ⟨ret, res, e⟩
    exact ⟨res, e, by simp [lscp_client_query_body, h]⟩
  | timeout => exact ⟨some timeoutMsg, -1, rfl⟩
  | failed => exact ⟨none, -1, rfl⟩

/-- Client state used by witnesses that need a bound session-id. -/
def boundClient : lscp_client_t := { sampleClient with sessid := some (strL "abc") }

/-- C6: once a session-id is bound, no operation other than a successful
unsubscribe changes it — a subscribe while an id is bound fails without
touching the state, the UDP keepalive handler never replaces a bound id
(whatever the datagram), and a successful unsubscribe unconditionally
clears the bound id. -/
theorem C6_sessid_binding_invariant :
    (∀ (c : lscp_client_t) (out : CallOutcome), c.sessid.isSome = true →
      lscp_client_subscribe c out = (.failed, c)) ∧
    (∀ (s : Str) (d : Str), (_lscp_client_udp_step (some s) d).sessid = some s) ∧
    (∀ (c : lscp_client_t) (out : CallOutcome),
      (lscp_client_unsubscribe c out).1 = .ok →
      (lscp_client_unsubscribe c out).2.sessid = none) := by
  refine ⟨?_, ?_, ?_⟩
  · intro c out h
    unfold lscp_client_subscribe
    rw [if_pos h]
  · intro s d
    unfold _lscp_client_udp_step
    split
    · split
      · rfl
      · split
        · rfl
        · split
          · rfl
          · simp only
            split <;> rfl
    · rfl
  · intro c out h
    unfold lscp_client_unsubscribe at h ⊢
    rcases hc : c.sessid with - | s
    · rw [hc] at h
      simp at h
    · rw [hc] at h
      rcases hq : lscp_client_query_body c out with ⟨ret, c₁⟩
      rw [hq] at h
      simp only at h ⊢
      by_cases hr : ret = LscpStatus.ok
      · subst hr
        simp
      · rw [if_neg hr] at h
        simp only at h
        exact absurd h hr

theorem C6_witness :
    lscp_client_subscribe boundClient .timeout = (.failed, boundClient) ∧
    (_lscp_client_udp_step (some (strL "abc")) (strL "PING 5000 zzz")).sessid
      = some (strL "abc") ∧
    (lscp_client_unsubscribe boundClient (.received (strL "Bye\r\n"))).2.sessid = none := by
  refine ⟨?_, ?_, ?_⟩
  · exact C6_sessid_binding_invariant.1 boundClient .timeout (by decide)
  · exact C6_sessid_binding_invariant.2.1 (strL "abc") (strL "PING 5000 zzz")
  · exact C6_sessid_binding_invariant.2.2 boundClient (.received (strL "Bye\r\n")) (by decide)

/-- C3: for every typed info query (audio/midi driver info, engine info,
channel info), if the underlying transaction does not return OK the
function returns NULL and the corresponding cache structure is left
exactly as it was before the call — reset-then-repopulate happens only on
a successful query. -/
theorem C3_failed_query_preserves_caches :
    ∀ (c : lscp_client_t) (out : CallOutcome) (sel : DriverSel) (name : Str) (chan : Int),
      (lscp_client_query_body c out).1 ≠ .ok →
      ((_lscp_driver_info_query c sel out).1 = none ∧
       (_lscp_driver_info_query c sel out).2.audio_info = c.audio_info ∧
       (_lscp_driver_info_query c sel out).2.midi_info = c.midi_info) ∧
      ((lscp_get_engine_info c (some name) out).1 = none ∧
       (lscp_get_engine_info c (some name) out).2.engine_info = c.engine_info) ∧
      (0 ≤ chan →
       (lscp_get_channel_info c chan out).1 = none ∧
       (lscp_get_channel_info c chan out).2.channel_info = c.channel_info) := by
  intro c out sel name chan hstat
  obtain ⟨res, e, hsh⟩ := queryBodySndShape c out
  rcases hq : lscp_client_query_body c out with ⟨ret, c₁⟩
  rw [hq] at hstat hsh
  simp only at hstat hsh
  refine ⟨?_, ?_, ?_⟩
  · unfold _lscp_driver_info_query
    rw [hq]
    simp only [ne_eq, hstat, not_false_iff, if_pos]
    rw [hsh]
    simp [_lscp_client_set_result]
  · unfold lscp_get_engine_info
    rw [hq]
    simp only [if_neg hstat]
    rw [hsh]
    simp [_lscp_client_set_result]
  · intro hchan
    unfold lscp_get_channel_info
    rw [if_neg (not_lt.mpr hchan), hq]
    simp only [if_neg hstat]
    rw [hsh]
    simp [_lscp_client_set_result]

theorem C3_witness :
    (_lscp_driver_info_query sampleClient DriverSel.audio .timeout).1 = none ∧
    (_lscp_driver_info_query sampleClient DriverSel.audio .timeout).2.audio_info
      = sampleClient.audio_info ∧
    (lscp_get_engine_info sampleClient (some (strL "GigEngine")) .timeout).1 = none ∧
    (lscp_get_channel_info sampleClient 0 .timeout).2.channel_info
      = sampleClient.channel_info := by
  have h := C3_failed_query_preserves_caches sampleClient .timeout DriverSel.audio
    (strL "GigEngine") 0 (by decide)
  exact ⟨h.1.1, h.1.2.1, h.2.1.1, (h.2.2 (by decide)).2⟩

/-- The transaction body never touches the stream-buffer bookkeeping. -/
theorem queryBodyPreservesAlloc (c : lscp_client_t) (out : CallOutcome) :
    (lscp_client_query_body c out).2.buffer_fill = c.buffer_fill ∧
    (lscp_client_query_body c out).2.nextAllocId = c.nextAllocId ∧
    (lscp_client_query_body c out).2.iStreamCount = c.iStreamCount := by
  obtain ⟨res, e, hsh⟩ := queryBodySndShape c out
  rw [hsh]
  exact ⟨rfl, rfl, rfl⟩

/-- The stream-count wrapper never touches the stream-buffer
bookkeeping either (its `iStreamCount` is a local variable in C). -/
theorem streamCountPreservesAlloc (c : lscp_client_t) (chan : Int) (out : CallOutcome) :
    (lscp_get_channel_stream_count c chan out).2.buffer_fill = c.buffer_fill ∧
    (lscp_get_channel_stream_count c chan out).2.nextAllocId = c.nextAllocId ∧
    (lscp_get_channel_stream_count c chan out).2.iStreamCount = c.iStreamCount := by
  unfold lscp_get_channel_stream_count
  split
  · exact ⟨rfl, rfl, rfl⟩
  · have hpres := queryBodyPreservesAlloc c out
    rcases hq : lscp_client_query_body c out with ⟨ret, c₁⟩
    rw [hq] at hpres
    simp only at hpres ⊢
    split
    · exact hpres
    · exact hpres

/-- Stream-count resolution never touches the stream-buffer
bookkeeping. -/
theorem resolvedPreservesAlloc (c : lscp_client_t) (chan : Int) (out : CallOutcome) :
    (resolvedStreamCount c chan out).2.buffer_fill = c.buffer_fill ∧
    (resolvedStreamCount c chan out).2.nextAllocId = c.nextAllocId ∧
    (resolvedStreamCount c chan out).2.iStreamCount = c.iStreamCount := by
  unfold resolvedStreamCount
  split
  · exact streamCountPreservesAlloc c chan out
  · exact ⟨rfl, rfl, rfl⟩

/-- C7: on a buffer-fill query for a valid channel with a resolvable
stream count, the count is resolved from the cache — issuing a
stream-count transaction exactly when the cached count is below one — and
the result array is freed and reallocated (with the resolved count as its
length, consuming a fresh allocation id) precisely when the resolved
count differs from the cached `iStreamCount`; an unchanged count keeps
the very same array allocation. -/
theorem C7_buffer_fill_realloc_iff :
    ∀ (c : lscp_client_t) (chan : Int) (countOut fillOut : CallOutcome),
      0 ≤ chan →
      1 ≤ (resolvedStreamCount c chan countOut).1 →
      (c.iStreamCount < 1 →
        (resolvedStreamCount c chan countOut).1
          = (lscp_get_channel_stream_count c chan countOut).1) ∧
      (1 ≤ c.iStreamCount →
        (resolvedStreamCount c chan countOut).1 = c.iStreamCount) ∧
      (c.iStreamCount = (resolvedStreamCount c chan countOut).1 →
        (lscp_get_channel_buffer_fill c chan countOut fillOut).client.buffer_fill
            = c.buffer_fill ∧
        (lscp_get_channel_buffer_fill c chan countOut fillOut).client.nextAllocId
            = c.nextAllocId ∧
        (lscp_get_channel_buffer_fill c chan countOut fillOut).client.iStreamCount
            = c.iStreamCount) ∧
      (¬ c.iStreamCount = (resolvedStreamCount c chan countOut).1 →
        (lscp_get_channel_buffer_fill c chan countOut fillOut).client.buffer_fill
            = some (c.nextAllocId, (resolvedStreamCount c chan countOut).1.toNat) ∧
        (lscp_get_channel_buffer_fill c chan countOut fillOut).client.nextAllocId
            = c.nextAllocId + 1 ∧
        (lscp_get_channel_buffer_fill c chan countOut fillOut).client.iStreamCount
            = (resolvedStreamCount c chan countOut).1) := by
  intro c chan countOut fillOut hchan hn
  have hpres := resolvedPreservesAlloc c chan countOut
  rcases hrc : resolvedStreamCount c chan countOut with ⟨n, c₁⟩
  rw [hrc] at hpres hn
  simp only at hpres hn ⊢
  obtain ⟨hbf, hna, hsc⟩ := hpres
  have hfirst : c.iStreamCount < 1 →
      n = (lscp_get_channel_stream_count c chan countOut).1 := by
    intro hlt
    unfold resolvedStreamCount at hrc
    rw [if_pos hlt] at hrc
    rw [hrc]
  have hsecond : 1 ≤ c.iStreamCount → n = c.iStreamCount := by
    intro hge
    unfold resolvedStreamCount at hrc
    rw [if_neg (not_lt.mpr hge)] at hrc
    exact (congrArg Prod.fst hrc).symm
  refine ⟨hfirst, hsecond, ?_, ?_⟩
  · intro heq
    have hne : ¬ c₁.iStreamCount ≠ n := by
      rw [hsc]
      exact not_not_intro heq
    unfold lscp_get_channel_buffer_fill
    rw [if_neg (not_lt.mpr hchan), hrc]
    simp only [if_neg (not_lt.mpr hn), if_neg hne]
    rcases hq : lscp_client_query_body c₁ fillOut with ⟨ret, c₃⟩
    have hp3 := queryBodyPreservesAlloc c₁ fillOut
    rw [hq] at hp3
    simp only at hp3 ⊢
    obtain ⟨h1, h2, h3⟩ := hp3
    split
    · exact ⟨h1.trans hbf, h2.trans hna, h3.trans hsc⟩
    · exact ⟨h1.trans hbf, h2.trans hna, h3.trans hsc⟩
  · intro hneq
    have hne : c₁.iStreamCount ≠ n := by
      rw [hsc]
      exact hneq
    unfold lscp_get_channel_buffer_fill
    rw [if_neg (not_lt.mpr hchan), hrc]
    simp only [if_neg (not_lt.mpr hn), if_pos hne]
    rcases hq : lscp_client_query_body
        { c₁ with buffer_fill := some (c₁.nextAllocId, n.toNat),
                  nextAllocId := c₁.nextAllocId + 1, iStreamCount := n } fillOut
      with ⟨ret, c₃⟩
    have hp3 := queryBodyPreservesAlloc
      { c₁ with buffer_fill := some (c₁.nextAllocId, n.toNat),
                nextAllocId := c₁.nextAllocId + 1, iStreamCount := n } fillOut
    rw [hq] at hp3
    simp only at hp3 ⊢
    obtain ⟨h1, h2, h3⟩ := hp3
    rw [hna] at h1 h2
    split
    · exact ⟨h1, h2, h3⟩
    · exact ⟨h1, h2, h3⟩

theorem fillLoopNone (buf : Str) (i : Nat) (n : Int)
    (h : _lscp_strtok buf fillSeps = none) : fillLoop buf i n = [] := by
  rw [fillLoop]
  split
  · rfl
  · rename_i tok rest heq
    rw [h] at heq
    cases heq

theorem fillLoopStop (buf : Str) (i : Nat) (n : Int) (tok rest : Str)
    (h : _lscp_strtok buf fillSeps = some (tok, rest)) (hge : ¬ (i : Int) < n) :
    fillLoop buf i n = [] := by
  rw [fillLoop]
  split
  · rfl
  · rename_i tok' rest' heq
    rw [if_neg hge]

theorem fillLoopSkip (buf : Str) (i : Nat) (n : Int) (tok rest : Str)
    (h : _lscp_strtok buf fillSeps = some (tok, rest)) (hlt : (i : Int) < n)
    (htok : tok.isEmpty = true) : fillLoop buf i n = fillLoop rest i n := by
  rw [fillLoop]
  split
  · rename_i heq
    rw [h] at heq
    cases heq
  · rename_i tok' rest' heq
    rw [h] at heq
    obtain ⟨rfl, rfl⟩ := Prod.mk.injEq .. ▸ (Option.some.injEq .. ▸ heq.symm)
    rw [if_pos hlt, if_pos htok]

theorem fillLoopBreak (buf : Str) (i : Nat) (n : Int) (tok rest : Str)
    (h : _lscp_strtok buf fillSeps = some (tok, rest)) (hlt : (i : Int) < n)
    (htok : ¬ tok.isEmpty = true) (h2 : _lscp_strtok rest fillSeps = none) :
    fillLoop buf i n = [(i, FillField.stream_id, atoi tok)] := by
  rw [fillLoop]
  split
  · rename_i heq
    simp [h] at heq
  · rename_i tok' rest' heq
    rw [h] at heq
    obtain ⟨rfl, rfl⟩ := Prod.mk.injEq .. ▸ (Option.some.injEq .. ▸ heq.symm)
    rw [if_pos hlt, if_neg htok]
    split
    · rfl
    · rename_i tok2 rest2 heq2
      simp [h2] at heq2

theorem fillLoopPair (buf : Str) (i : Nat) (n : Int) (tok rest tok2 rest2 : Str)
    (h : _lscp_strtok buf fillSeps = some (tok, rest)) (hlt : (i : Int) < n)
    (htok : ¬ tok.isEmpty = true)
    (h2 : _lscp_strtok rest fillSeps = some (tok2, rest2)) :
    fillLoop buf i n = (i, FillField.stream_id, atoi tok)
      :: (i, FillField.stream_usage, atoi tok2) :: fillLoop rest2 (i + 1) n := by
  rw [fillLoop]
  split
  · rename_i heq
    simp [h] at heq
  · rename_i tok' rest' heq
    rw [h] at heq
    obtain ⟨rfl, rfl⟩ := Prod.mk.injEq .. ▸ (Option.some.injEq .. ▸ heq.symm)
    rw [if_pos hlt, if_neg htok]
    split
    · rename_i heq2
      simp [h2] at heq2
    · rename_i tok2' rest2' heq2
      rw [h2] at heq2
      obtain ⟨rfl, rfl⟩ := Prod.mk.injEq .. ▸ (Option.some.injEq .. ▸ heq2.symm)
      rfl

theorem fillLoopBoundAux : ∀ (L : Nat) (buf : Str), buf.length ≤ L →
    ∀ (i : Nat) (n : Int) (w : Nat × FillField × Int),
      w ∈ fillLoop buf i n → ((i : Int) ≤ (w.1 : Int) ∧ (w.1 : Int) < n) := by
  intro L
  induction L with
  | zero =>
    intro buf hlen i n w hw
    have hb : buf = [] := List.eq_nil_of_length_eq_zero (Nat.le_zero.mp hlen)
    subst hb
    rw [fillLoopNone [] i n (by decide)] at hw
    simp at hw
  | succ L ih =>
    intro buf hlen i n w hw
    rcases hs : _lscp_strtok buf fillSeps with - | ⟨tok, rest⟩
    · rw [fillLoopNone buf i n hs] at hw
      simp at hw
    · have hr1 : rest.length ≤ L := by
        have := strtokRestLenLt buf fillSeps tok rest hs
        omega
      by_cases hlt : (i : Int) < n
      · by_cases htok : tok.isEmpty = true
        · rw [fillLoopSkip buf i n tok rest hs hlt htok] at hw
          exact ih rest hr1 i n w hw
        · rcases hs2 : _lscp_strtok rest fillSeps with - | ⟨tok2, rest2⟩
          · rw [fillLoopBreak buf i n tok rest hs hlt htok hs2] at hw
            rcases List.mem_singleton.mp hw with rfl
            exact ⟨le_refl _, hlt⟩
          · have hr2 : rest2.length ≤ L := by
              have l1 := strtokRestLenLt buf fillSeps tok rest hs
              have l2 := strtokRestLenLt rest fillSeps tok2 rest2 hs2
              omega
            rw [fillLoopPair buf i n tok rest tok2 rest2 hs hlt htok hs2] at hw
            rcases List.mem_cons.mp hw with rfl | hw'
            · exact ⟨le_refl _, hlt⟩
            · rcases List.mem_cons.mp hw' with rfl | hw''
              · exact ⟨le_refl _, hlt⟩
              · have hrec := ih rest2 hr2 (i + 1) n w hw''
                constructor
                · have := hrec.1
                  push_cast at this ⊢
                  omega
                · exact hrec.2
      · rw [fillLoopStop buf i n tok rest hs hlt] at hw
        simp at hw

/-- The writes of one buffer-fill call are either empty or exactly the
payload parse bounded by the post-call stream count. -/
theorem bufferFillWritesShape (c : lscp_client_t) (chan : Int) (co fo : CallOutcome) :
    (lscp_get_channel_buffer_fill c chan co fo).writes = [] ∨
    (lscp_get_channel_buffer_fill c chan co fo).writes
      = fillLoop ((lscp_get_channel_buffer_fill c chan co fo).client.pszResult.getD []) 0
          (lscp_get_channel_buffer_fill c chan co fo).client.iStreamCount := by
  unfold lscp_get_channel_buffer_fill
  split
  · exact Or.inl rfl
  · rcases hrc : resolvedStreamCount c chan co with ⟨n, c₁⟩
    simp only
    split
    · exact Or.inl rfl
    · split
      all_goals split
      all_goals first
      | exact Or.inr rfl
      | exact Or.inl rfl

/-- C9: the buffer-fill payload parse writes at most `iStreamCount`
pairs — every field store, the partial `stream_id` store of the break
path on a missing second token included, lands at an index below the
stream count bound of the loop (and hence below the allocated length),
regardless of how many tokens the payload contains. -/
theorem C9_fill_writes_bounded :
    (∀ (buf : Str) (i : Nat) (n : Int) (w : Nat × FillField × Int),
      w ∈ fillLoop buf i n → (i : Int) ≤ (w.1 : Int) ∧ (w.1 : Int) < n) ∧
    (∀ (c : lscp_client_t) (chan : Int) (countOut fillOut : CallOutcome)
        (w : Nat × FillField × Int),
      w ∈ (lscp_get_channel_buffer_fill c chan countOut fillOut).writes →
      (w.1 : Int) < (lscp_get_channel_buffer_fill c chan countOut fillOut).client.iStreamCount) := by
  constructor
  · intro buf i n w hw
    exact fillLoopBoundAux buf.length buf (le_refl _) i n w hw
  · intro c chan countOut fillOut w hw
    rcases bufferFillWritesShape c chan countOut fillOut with hsh | hsh
    · rw [hsh] at hw
      simp at hw
    · rw [hsh] at hw
      exact (fillLoopBoundAux _ _ (le_refl _) 0 _ w hw).2

theorem dropWhileAppendHeadFalse (p : Char → Bool) (a : Str) (x : Char) (y : Str)
    (hx : p x = false) : (a ++ x :: y).dropWhile p = a.dropWhile p ++ x :: y := by
  induction a with
  | nil =>
    simp only [List.nil_append, List.dropWhile_nil]
    exact List.dropWhile_cons_of_neg (by simp [hx])
  | cons c t ih =>
    by_cases hc : p c
    · rw [List.cons_append, List.dropWhile_cons_of_pos hc, List.dropWhile_cons_of_pos hc]
      exact ih
    · rw [List.cons_append, List.dropWhile_cons_of_neg hc, List.dropWhile_cons_of_neg hc,
        List.cons_append]

/-- C8, amended: unquoting a text whose first non-whitespace character is
not a quote character yields the bare text with its leading whitespace
trimmed but its trailing whitespace preserved; unquoting a double-quoted
text yields the inner content with the outer whitespace and the quotes
stripped (and whitespace just inside the quotes trimmed), inner
characters — commas included — preserved. -/
theorem C8_amended_unquote :
    (∀ (s : Str) (c : Char) (rest : Str),
      s.dropWhile isSpaceC = c :: rest → ¬ c = '"' → ¬ c = '\'' →
      _lscp_unquote s = c :: rest) ∧
    (∀ (pre inner post : Str),
      (∀ ch ∈ pre, isSpaceC ch = true) → (∀ ch ∈ inner, ¬ ch = '"') →
      _lscp_unquote (pre ++ '"' :: inner ++ '"' :: post)
        = rtrimC (inner.dropWhile isSpaceC)) := by
  constructor
  · intro s c rest hdrop hcq hcq'
    unfold _lscp_unquote
    rw [hdrop]
    simp only [if_neg (by exact not_or_intro hcq hcq')]
  · intro pre inner post hpre hinner
    have hdq : isSpaceC '"' = false := by decide
    have hdrop : (pre ++ '"' :: (inner ++ '"' :: post)).dropWhile isSpaceC
        = '"' :: (inner ++ '"' :: post) := by
      rw [dropWhileAppendAll _ _ _ hpre]
      exact List.dropWhile_cons_of_neg (by decide)
    unfold _lscp_unquote
    rw [show pre ++ '"' :: inner ++ '"' :: post = pre ++ '"' :: (inner ++ '"' :: post)
      from by simp, hdrop]
    simp only
    rw [if_pos (Or.inl trivial)]
    have hinner2 : (inner ++ '"' :: post).dropWhile isSpaceC
        = inner.dropWhile isSpaceC ++ '"' :: post :=
      dropWhileAppendHeadFalse isSpaceC inner '"' post hdq
    rw [hinner2]
    have hmemdrop : ∀ ch ∈ inner.dropWhile isSpaceC, ¬ ch = '"' :=
      fun ch hc => hinner ch ((List.dropWhile_sublist isSpaceC).mem hc)
    have htake : (inner.dropWhile isSpaceC ++ '"' :: post).takeWhile (fun d => d ≠ '"')
        = inner.dropWhile isSpaceC := by
      rw [takeWhileAppendAll _ _ _ (fun ch hc => by simp [hmemdrop ch hc])]
      have h0 : (('"' :: post : Str)).takeWhile (fun d => d ≠ '"') = [] :=
        List.takeWhile_cons_of_neg (by decide)
      rw [h0]
      simp
    have hdrop2 : (inner.dropWhile isSpaceC ++ '"' :: post).dropWhile (fun d => d ≠ '"')
        = '"' :: post := by
      rw [dropWhileAppendAll _ _ _ (fun ch hc => by simp [hmemdrop ch hc])]
      exact List.dropWhile_cons_of_neg (by decide)
    rw [hdrop2, htake]
    simp

theorem C8_amended_witness :
    _lscp_unquote (strL "  foo  ") = strL "foo  " ∧
    _lscp_unquote (strL "  \"Hello, World\"  ") = strL "Hello, World" := by
  constructor
  · exact C8_amended_unquote.1 (strL "  foo  ") 'f' (strL "oo  ")
      (by decide) (by decide) (by decide)
  · exact C8_amended_unquote.2 (strL "  ") (strL "Hello, World") (strL "  ")
      (by decide) (by decide)

theorem C7_witness :
    1 ≤ (resolvedStreamCount sampleClient 0 (.received (strL "2\r\n"))).1 ∧
    (lscp_get_channel_buffer_fill sampleClient 0 (.received (strL "2\r\n"))
        (.received (strL "[0]30%,[1]50%\r\n"))).client.buffer_fill = some (0, 2) ∧
    (lscp_get_channel_buffer_fill sampleClient 0 (.received (strL "2\r\n"))
        (.received (strL "[0]30%,[1]50%\r\n"))).client.nextAllocId = 1 := by
  have h := C7_buffer_fill_realloc_iff sampleClient 0 (.received (strL "2\r\n"))
    (.received (strL "[0]30%,[1]50%\r\n")) (by decide) (by decide)
  have h2 := h.2.2.2 (by decide)
  exact ⟨by decide, h2.1, h2.2.1⟩

theorem C9_witness :
    ((0 : Nat), FillField.stream_id, (7 : Int)) ∈ fillLoop (strL "[7]") 0 1 ∧
    ((0 : Int) ≤ (((0 : Nat) : Int)) ∧ (((0 : Nat) : Int) < 1)) := by
  have ht1 : _lscp_strtok (strL "[7]") fillSeps = some (strL "7", []) := by decide
  have ht2 : _lscp_strtok ([] : Str) fillSeps = none := by decide
  have h1 : fillLoop (strL "[7]") 0 1 = [(0, FillField.stream_id, atoi (strL "7"))] :=
    fillLoopBreak _ 0 1 _ _ ht1 (by decide) (by decide) ht2
  constructor
  · rw [h1]
    simp only [List.mem_singleton]
    decide
  · exact C9_fill_writes_bounded.1 (strL "[7]") 0 1 (0, FillField.stream_id, 7)
      (by rw [h1]; simp only [List.mem_singleton]; decide)
